import Mathlib

/-!
Verification of the doomzio2-demo core (world generation, chunk cache,
portal planner, transition state machine).

Modelling conventions for the JavaScript source:
* JS `number` values that the code uses as 32-bit quantities (`>>> 0`,
  `Math.imul`, `&`, `^`, `<<`, `>>>`) are modelled over `Nat`/`Int` with
  explicit reduction modulo `2 ^ 32`; `x >>> 0` is `ToUint32`, i.e.
  `Int.emod _ (2 ^ 32)`.
* JS `number` values used as real quantities (positions, times,
  probabilities, colors before rounding) are modelled as exact rationals
  `ℚ`.  Float literals such as `0.45`, `0.35`, `3.4` are modelled by the
  decimal rationals they denote.  For the single comparison
  `rand01 s < 0.45` this is exact: `rand01` only returns dyadic rationals
  `k / 2 ^ 32` and no such value lies between `9/20` and the Float64
  closest to `0.45`, so the branch taken is identical.
* The four cardinal angles `0, -PI/2, PI, PI/2` are represented by their
  quarter-turn count `angQ` (angle = `angQ * PI / 2`), so that
  `cos`/`sin` are exact rationals (`cosQ`/`sinQ`).
* `Math.hypot`-based tests are rewritten sqrt-free over ℚ:
  `hypot x y < c ↔ x*x + y*y < c*c` for `c > 0`, and for unit `(dx,dy)`
  `(x/len)*dx + (y/len)*dy > t ↔ 0 < dot ∧ t*t*len² < dot²` for `t > 0`.
* JS `Map` objects are modelled as insertion-ordered association lists;
  `Map.prototype.set` on an existing key keeps its position (as in JS),
  otherwise appends; iteration is in insertion order.  The cache key
  string `layer:cx:cy` is modelled by the triple itself (the string
  encoding is injective on triples).
-/

/-! ## Deterministic RNG (src/rng.js, `hash32` / `rand01`) -/

/-- JS `ToUint32` (`x >>> 0`) on an exact integer. -/
def u32 (n : Int) : Nat := (n % (2 ^ 32 : Int)).toNat

/-- JS `Math.imul(a, b) >>> 0` on unsigned representatives. -/
def imul32 (a b : Nat) : Nat := (a * b) % 2 ^ 32

/-- `hash32(x, y, salt)` from src/rng.js: an FNV-style 32-bit mix. -/
def hash32 (x y salt : Int) : Nat :=
  let h : Nat := 2166136261
  let h := imul32 (h ^^^ u32 (x * 374761393)) 16777619
  let h := imul32 (h ^^^ u32 (y * 668265263)) 16777619
  let h := imul32 (h ^^^ u32 (salt * 2246822519)) 16777619
  let h := imul32 (h ^^^ 0x9e3779b9) 16777619
  h

/-- The integer xorshift round of `rand01(seed)` (each step is followed
by `>>>= 0`, i.e. reduction to 32 bits). -/
def xorshift (seed : Nat) : Nat :=
  let x : Nat := seed % 2 ^ 32
  let x : Nat := (x ^^^ (x <<< 13)) % 2 ^ 32
  let x : Nat := x ^^^ (x >>> 17)
  (x ^^^ (x <<< 5)) % 2 ^ 32

/-- `rand01(seed)` from src/rng.js: one xorshift round, scaled to `[0,1)`
by the final `(x >>> 0) / 4294967296`. -/
def rand01 (seed : Nat) : ℚ :=
  (xorshift seed : ℚ) / 4294967296

/-! ## Configuration constants (src/config.js) -/

def TILE : Nat := 24
def CHUNK_TILES : Nat := 8
def CHUNK_PX : Nat := TILE * CHUNK_TILES
def WORLD_CHUNKS_W : Nat := 12
def WORLD_CHUNKS_H : Nat := 12
def WORLD_W : Nat := WORLD_CHUNKS_W * CHUNK_PX
def WORLD_H : Nat := WORLD_CHUNKS_H * CHUNK_PX
def CHUNK_CACHE_MAX : Nat := 520

/-- A cardinal facing direction; `angQ` counts quarter turns (`ang = angQ * PI/2`). -/
structure Dir where
  name : String
  dx : ℚ
  dy : ℚ
  angQ : Int
  deriving DecidableEq, Repr

def dirDown : Dir := { name := "Down", dx := 0, dy := 1, angQ := 0 }
def dirRight : Dir := { name := "Right", dx := 1, dy := 0, angQ := -1 }
def dirUp : Dir := { name := "Up", dx := 0, dy := -1, angQ := 2 }
def dirLeft : Dir := { name := "Left", dx := -1, dy := 0, angQ := 1 }

def DIRS : List Dir := [dirDown, dirRight, dirUp, dirLeft]

def PORTAL_mouthW : ℚ := (TILE : ℚ) * (17 / 5)
def PORTAL_mouthH : ℚ := (TILE : ℚ) * (19 / 10)
def PORTAL_depth : ℚ := (TILE : ℚ) * (16 / 5)
def PORTAL_pad : ℚ := (TILE : ℚ) * (27 / 20)
def PORTAL_transition_duration : ℚ := 28 / 100
def PORTAL_transition_cooldown : ℚ := 22 / 100
def PORTAL_MODE_oneWayChance : ℚ := 45 / 100

/-- Exact cosine of `k` quarter turns (`Math.cos(k * PI/2)`). -/
def cosQ (k : Int) : ℚ :=
  if k % 4 = 0 then 1 else if k % 4 = 1 then 0 else if k % 4 = 2 then -1 else 0

/-- Exact sine of `k` quarter turns (`Math.sin(k * PI/2)`). -/
def sinQ (k : Int) : ℚ :=
  if k % 4 = 0 then 0 else if k % 4 = 1 then 1 else if k % 4 = 2 then 0 else -1

/-! ## Portal planner (src/portals.js) -/

/-- `portalGroupAt(cx, cy)`: even-even chunks can spawn portal entrances;
the group is the parity of `(cx >> 1) + (cy >> 1)` (0 connects layers 0-1,
1 connects layers 1-2). -/
def portalGroupAt (cx cy : Int) : Option Int :=
  if cx % 2 = 1 ∨ cy % 2 = 1 then none
  else some ((Int.fdiv cx 2 + Int.fdiv cy 2) % 2)

/-- `pickDir(cx, cy, group)`: the direction index is
`((cx*131) ^ (cy*197) ^ (group*911)) & 3` (32-bit xor, low two bits). -/
def pickDir (cx cy g : Int) : Nat × Dir :=
  let idx := (u32 (cx * 131) ^^^ u32 (cy * 197) ^^^ u32 (g * 911)) % 4
  (idx, DIRS.getD idx dirDown)

/-- The geometry shared by both sides of a portal site (`portalSharedDef`). -/
structure PortalShared where
  idBase : String
  cx : Int
  cy : Int
  group : Int
  x : ℚ
  y : ℚ
  dirIdx : Nat
  dir : Dir
  mouthW : ℚ
  mouthH : ℚ
  depth : ℚ
  deriving DecidableEq, Repr

def portalSharedDef (cx cy g : Int) : PortalShared :=
  let pd := pickDir cx cy g
  let pad := PORTAL_pad
  let ex0 : ℚ := (cx : ℚ) * (CHUNK_PX : ℚ) + (CHUNK_PX : ℚ) / 2
  let ey0 : ℚ := (cy : ℚ) * (CHUNK_PX : ℚ) + (CHUNK_PX : ℚ) / 2
  let ey1 : ℚ := if pd.2.name = "Down" then (cy : ℚ) * (CHUNK_PX : ℚ) + ((CHUNK_PX : ℚ) - pad) else ey0
  let ey2 : ℚ := if pd.2.name = "Up" then (cy : ℚ) * (CHUNK_PX : ℚ) + pad else ey1
  let ex1 : ℚ := if pd.2.name = "Right" then (cx : ℚ) * (CHUNK_PX : ℚ) + ((CHUNK_PX : ℚ) - pad) else ex0
  let ex2 : ℚ := if pd.2.name = "Left" then (cx : ℚ) * (CHUNK_PX : ℚ) + pad else ex1
  { idBase := "g" ++ toString g ++ ":" ++ toString cx ++ ":" ++ toString cy
    cx := cx, cy := cy, group := g
    x := ex2, y := ey2
    dirIdx := pd.1, dir := pd.2
    mouthW := PORTAL_mouthW, mouthH := PORTAL_mouthH, depth := PORTAL_depth }

/-- `flipDirIdx(idx) = (idx + 2) & 3`. -/
def flipDirIdx (idx : Nat) : Nat := (idx + 2) % 4

/-- `portalModeForSite(cx, cy, group)`: travel mode for the site. -/
def portalModeForSite (cx cy g : Int) : String :=
  let s := hash32 cx cy (9001 + g * 101)
  let r := rand01 s
  if r < PORTAL_MODE_oneWayChance then "oneway" else "twoway"

/-- `oneWaySourceLayer(cx, cy, group)`: fixed source side of a one-way portal. -/
def oneWaySourceLayer (cx cy g : Int) : Int :=
  let bit := hash32 cx cy (4242 + g * 9) % 2
  if g = 0 then (if bit = 1 then 0 else 1) else (if bit = 1 then 1 else 2)

/-- An entrance descriptor, as produced by `entrancesForChunk`. -/
structure Entrance where
  id : String
  cx : Int
  cy : Int
  group : Int
  x : ℚ
  y : ℚ
  dirIdx : Nat
  dir : Dir
  mouthW : ℚ
  mouthH : ℚ
  depth : ℚ
  mode : String
  layer : Int
  toLayer : Int
  deriving DecidableEq, Repr

/-- `entrancesForChunk(layer, cx, cy)` from src/portals.js. -/
def entrancesForChunk (layer cx cy : Int) : List Entrance :=
  match portalGroupAt cx cy with
  | none => []
  | some g =>
    if ¬ ((g = 0 ∧ (layer = 0 ∨ layer = 1)) ∨ (g = 1 ∧ (layer = 1 ∨ layer = 2))) then []
    else
      let shared := portalSharedDef cx cy g
      let mode := portalModeForSite cx cy g
      let a : Int := if g = 0 then 0 else 1
      let b : Int := if g = 0 then 1 else 2
      if mode = "oneway" then
        let src := oneWaySourceLayer cx cy g
        let dst := if src = a then b else a
        if layer ≠ src then []
        else
          [{ id := shared.idBase ++ ":oneway:" ++ toString src ++ "->" ++ toString dst
             cx := shared.cx, cy := shared.cy, group := shared.group
             x := shared.x, y := shared.y
             dirIdx := shared.dirIdx, dir := shared.dir
             mouthW := shared.mouthW, mouthH := shared.mouthH, depth := shared.depth
             mode := mode, layer := src, toLayer := dst }]
      else
        let toL := if layer = a then b else a
        let dIdx := if layer = b then flipDirIdx shared.dirIdx else shared.dirIdx
        let d := DIRS.getD dIdx dirDown
        [{ id := shared.idBase ++ ":twoway:" ++ toString layer ++ "<->" ++ toString toL
           cx := shared.cx, cy := shared.cy, group := shared.group
           x := shared.x, y := shared.y
           dirIdx := dIdx, dir := d
           mouthW := shared.mouthW, mouthH := shared.mouthH, depth := shared.depth
           mode := mode, layer := layer, toLayer := toL }]

/-- `pointInOrientedMouth(px, py, e)`: rotate the player into the
entrance's local frame and test the axis-aligned mouth rectangle.
`cos(-ang)`/`sin(-ang)` are exact (`cosQ`/`sinQ` of `-angQ`). -/
def pointInOrientedMouth (px py : ℚ) (e : Entrance) : Bool :=
  let c := cosQ (-e.dir.angQ)
  let s := sinQ (-e.dir.angQ)
  let lx := (px - e.x) * c - (py - e.y) * s
  let ly := (px - e.x) * s + (py - e.y) * c
  decide (|lx| ≤ e.mouthW / 2 ∧ |ly| ≤ e.mouthH / 2)

/-- `movingInto(e, mvx, mvy)`: the source computes
`mLen = hypot(mvx, mvy)`, rejects `mLen < 0.01`, then tests
`(mvx/mLen)*dx + (mvy/mLen)*dy > 0.35`.  Modelled sqrt-free over ℚ:
`hypot mvx mvy < 1/100 ↔ m2 < (1/100)^2`, and since `mLen > 0` and
`0.35 > 0`, `dot/mLen > 0.35 ↔ 0 < dot ∧ (0.35)^2 * m2 < dot^2`. -/
def movingInto (e : Entrance) (mvx mvy : ℚ) : Bool :=
  let m2 := mvx * mvx + mvy * mvy
  if m2 < (1 / 100) * (1 / 100) then false
  else
    let dot := mvx * e.dir.dx + mvy * e.dir.dy
    decide (0 < dot ∧ (35 / 100) * (35 / 100) * m2 < dot * dot)

/-! ## Terrain generator (src/world.js) -/

def VORONOI_SEEDS : Nat := 16
def NOISE_CELL_PX : Nat := 160
def HEIGHT_STRENGTH : ℚ := 3 / 100
def BAND1_MUL : ℚ := 74 / 100
def BAND2_MUL : ℚ := 87 / 100
def C_OUTLINE : Int × Int × Int := (63, 63, 63)

/-- `clamp(v, a, b)` from src/math.js: `Math.max(a, Math.min(b, v))`. -/
def clampQ (v a b : ℚ) : ℚ := max a (min b v)

/-- JS `Math.round`: round half toward positive infinity. -/
def jround (q : ℚ) : Int := ⌊q + 1 / 2⌋

def lerpQ (a b t : ℚ) : ℚ := a + (b - a) * t

def smoothstepQ (t : ℚ) : ℚ := t * t * (3 - 2 * t)

/-- `valueNoise01(wx, wy, salt)`: value noise on a `NOISE_CELL_PX` grid with
smooth interpolation (the source only calls it on integer pixel coordinates,
so `Math.floor(wx / NOISE_CELL_PX)` is exact floor division). -/
def valueNoise01 (wx wy salt : Int) : ℚ :=
  let gx := Int.fdiv wx (NOISE_CELL_PX : Int)
  let gy := Int.fdiv wy (NOISE_CELL_PX : Int)
  let fx : ℚ := ((wx : ℚ) - (gx : ℚ) * (NOISE_CELL_PX : ℚ)) / (NOISE_CELL_PX : ℚ)
  let fy : ℚ := ((wy : ℚ) - (gy : ℚ) * (NOISE_CELL_PX : ℚ)) / (NOISE_CELL_PX : ℚ)
  let sx := smoothstepQ fx
  let sy := smoothstepQ fy
  let v00 := rand01 (hash32 gx gy salt)
  let v10 := rand01 (hash32 (gx + 1) gy salt)
  let v01 := rand01 (hash32 gx (gy + 1) salt)
  let v11 := rand01 (hash32 (gx + 1) (gy + 1) salt)
  let vx0 := lerpQ v00 v10 sx
  let vx1 := lerpQ v01 v11 sx
  lerpQ vx0 vx1 sy

/-- `makeSeedsForLayer(layer)`: deterministic world-space Voronoi seeds. -/
def makeSeedsForLayer (layer : Int) : List (ℚ × ℚ) :=
  let salt := 9001 + layer * 97
  (List.range VORONOI_SEEDS).map fun i =>
    (rand01 (hash32 (i : Int) 0 salt) * ((WORLD_W : ℚ) - 1),
     rand01 (hash32 (i : Int) 1 salt) * ((WORLD_H : ℚ) - 1))

/-- The source builds `seedsByLayer = [mk 0, mk 1, mk 2]` once and indexes it
with `seedsByLayer[layer] || seedsByLayer[0]` (fallback for out-of-range). -/
def seedsByLayer (layer : Int) : List (ℚ × ℚ) :=
  if layer = 0 then makeSeedsForLayer 0
  else if layer = 1 then makeSeedsForLayer 1
  else if layer = 2 then makeSeedsForLayer 2
  else makeSeedsForLayer 0

/-- `regionIdAt(seeds, wx, wy)`: index of the first seed at minimal squared
distance (`best` starts at `1e30`, which exceeds every in-world distance). -/
def regionIdAt (seeds : List (ℚ × ℚ)) (wx wy : ℚ) : Nat :=
  (seeds.enum.foldl
    (fun (acc : ℚ × Nat) p =>
      let dx := wx - p.2.1
      let dy := wy - p.2.2
      let d := dx * dx + dy * dy
      if d < acc.1 then (d, p.1) else acc)
    ((10 : ℚ) ^ 30, 0)).2

def PALETTE_layer0 : List (Int × Int × Int) :=
  [(94, 119, 19), (191, 139, 50), (191, 191, 191), (74, 104, 62), (134, 92, 58)]
def PALETTE_layer1 : List (Int × Int × Int) :=
  [(110, 84, 45), (120, 120, 120), (70, 110, 70), (86, 86, 96), (58, 72, 82)]
def PALETTE_layer2 : List (Int × Int × Int) :=
  [(70, 70, 75), (95, 80, 55), (120, 70, 140), (52, 48, 58), (84, 52, 62)]

/-- `PALETTES[layer] || PALETTES[LAYER0]`. -/
def palFor (layer : Int) : List (Int × Int × Int) :=
  if layer = 0 then PALETTE_layer0
  else if layer = 1 then PALETTE_layer1
  else if layer = 2 then PALETTE_layer2
  else PALETTE_layer0

/-- `baseColorForRegion(layer, regionId)`: palette entry modulo palette size. -/
def baseColorForRegion (layer : Int) (regionId : Nat) : Int × Int × Int :=
  let pal := palFor layer
  pal.getD (regionId % pal.length) (0, 0, 0)

/-- `dilate8(mask, w, h)`: 8-neighborhood dilation of a 0/1 mask, with the
3x3 window clamped at the grid border.  The flat `Uint8Array` of the source
is modelled as a coordinate function `x y ↦ value`. -/
def dilate8 (mask : Nat → Nat → Nat) (w h : Nat) : Nat → Nat → Nat :=
  fun x y =>
    let y0 := y - 1
    let y1 := min (h - 1) (y + 1)
    let x0 := x - 1
    let x1 := min (w - 1) (x + 1)
    if (List.range' y0 (y1 + 1 - y0)).any (fun yy =>
         (List.range' x0 (x1 + 1 - x0)).any (fun xx => mask xx yy != 0))
    then 1 else 0

/-- Border dilation padding (`PAD = 3`) and padded grid size. -/
def GEN_PAD : Nat := 3
def GEN_PW : Nat := CHUNK_PX + GEN_PAD * 2
def GEN_PH : Nat := CHUNK_PX + GEN_PAD * 2

/-- Region IDs in world-pixel space, clamped at world bounds (the `region`
array of `genChunk`, indexed by padded coordinates). -/
def regionGrid (layer cx cy : Int) : Nat → Nat → Nat := fun px py =>
  let wy := cy * (CHUNK_PX : Int) + ((py : Int) - (GEN_PAD : Int))
  let wx := cx * (CHUNK_PX : Int) + ((px : Int) - (GEN_PAD : Int))
  regionIdAt (seedsByLayer layer)
    (clampQ (wx : ℚ) 0 ((WORLD_W : ℚ) - 1)) (clampQ (wy : ℚ) 0 ((WORLD_H : ℚ) - 1))

/-- Edge pixels: 4-neighbor (right/down) region-ID differences. -/
def edgeGrid (layer cx cy : Int) : Nat → Nat → Nat := fun px py =>
  let region := regionGrid layer cx cy
  if (px + 1 < GEN_PW ∧ region (px + 1) py ≠ region px py) ∨
     (py + 1 < GEN_PH ∧ region px (py + 1) ≠ region px py)
  then 1 else 0

def d1Grid (layer cx cy : Int) : Nat → Nat → Nat :=
  dilate8 (edgeGrid layer cx cy) GEN_PW GEN_PH
def d2Grid (layer cx cy : Int) : Nat → Nat → Nat :=
  dilate8 (d1Grid layer cx cy) GEN_PW GEN_PH
def d3Grid (layer cx cy : Int) : Nat → Nat → Nat :=
  dilate8 (d2Grid layer cx cy) GEN_PW GEN_PH

/-- `band1[i] = (d2[i] && !d1[i]) ? 1 : 0`. -/
def band1Grid (layer cx cy : Int) : Nat → Nat → Nat := fun x y =>
  if d2Grid layer cx cy x y ≠ 0 ∧ d1Grid layer cx cy x y = 0 then 1 else 0

/-- `band2[i] = (d3[i] && !d2[i]) ? 1 : 0`. -/
def band2Grid (layer cx cy : Int) : Nat → Nat → Nat := fun x y =>
  if d3Grid layer cx cy x y ≠ 0 ∧ d2Grid layer cx cy x y = 0 then 1 else 0

/-- One pixel of the chunk body: base color with height modulation, then the
dark bands and the outline, exactly in the source's order. -/
def pixelRGB (layer cx cy : Int) (x y : Nat) : Int × Int × Int :=
  let wx := cx * (CHUNK_PX : Int) + (x : Int)
  let wy := cy * (CHUNK_PX : Int) + (y : Int)
  let pid := regionGrid layer cx cy (x + GEN_PAD) (y + GEN_PAD)
  let base := baseColorForRegion layer pid
  let heightSalt := 7777 + layer * 131
  let h := valueNoise01 wx wy heightSalt - 1 / 2
  let mul := 1 + h * HEIGHT_STRENGTH
  let r := max 0 (min 255 (jround ((base.1 : ℚ) * mul)))
  let g := max 0 (min 255 (jround ((base.2.1 : ℚ) * mul)))
  let b := max 0 (min 255 (jround ((base.2.2 : ℚ) * mul)))
  let r := if band2Grid layer cx cy (x + GEN_PAD) (y + GEN_PAD) ≠ 0 then jround ((r : ℚ) * BAND2_MUL) else r
  let g := if band2Grid layer cx cy (x + GEN_PAD) (y + GEN_PAD) ≠ 0 then jround ((g : ℚ) * BAND2_MUL) else g
  let b := if band2Grid layer cx cy (x + GEN_PAD) (y + GEN_PAD) ≠ 0 then jround ((b : ℚ) * BAND2_MUL) else b
  let r := if band1Grid layer cx cy (x + GEN_PAD) (y + GEN_PAD) ≠ 0 then jround ((r : ℚ) * BAND1_MUL) else r
  let g := if band1Grid layer cx cy (x + GEN_PAD) (y + GEN_PAD) ≠ 0 then jround ((g : ℚ) * BAND1_MUL) else g
  let b := if band1Grid layer cx cy (x + GEN_PAD) (y + GEN_PAD) ≠ 0 then jround ((b : ℚ) * BAND1_MUL) else b
  if d1Grid layer cx cy (x + GEN_PAD) (y + GEN_PAD) ≠ 0 then C_OUTLINE else (r, g, b)

/-- A generated chunk: the RGBA pixel buffer (the `ImageData` bytes, one
`Int` in `[0, 255]` per byte, rows top to bottom) and the entrance list. -/
structure Chunk where
  data : List Int
  entrances : List Entrance

/-- `genChunk(layer, cx, cy)`: the whole chunk, a pure function of its
arguments (the canvas and `ImageData` are modelled by the byte list). -/
def genChunk (layer cx cy : Int) : Chunk :=
  { data := ((List.range (CHUNK_PX * CHUNK_PX)).map (fun i =>
      let x := i % CHUNK_PX
      let y := i / CHUNK_PX
      let c := pixelRGB layer cx cy x y
      [c.1, c.2.1, c.2.2, 255])).flatten
    entrances := entrancesForChunk layer cx cy }

/-! ## Chunk cache (src/world.js, `getChunk`) -/

/-- Cache key: the source keys with the string `layer:cx:cy`, which is
injective on the triple, so the triple itself is the model. -/
abbrev CKey := Int × Int × Int

/-- JS `Map.prototype.get` on an insertion-ordered association list. -/
def mapGet {α : Type} : List (CKey × α) → CKey → Option α
  | [], _ => none
  | p :: t, k => if p.1 = k then some p.2 else mapGet t k

/-- JS `Map.prototype.set`: replace in place if the key is present
(keeping its insertion position, as JS does), otherwise append. -/
def mapSet {α : Type} : List (CKey × α) → CKey → α → List (CKey × α)
  | [], k, v => [(k, v)]
  | p :: t, k, v => if p.1 = k then (k, v) :: t else p :: mapSet t k v

/-- JS `Map.prototype.delete`: remove the entry with this key (keys are
unique in a JS `Map`; the recursion removes every occurrence). -/
def mapDelete {α : Type} : List (CKey × α) → CKey → List (CKey × α)
  | [], _ => []
  | p :: t, k => if p.1 = k then mapDelete t k else p :: mapDelete t k

/-- The eviction scan of `getChunk`: `oldestT` starts at `Infinity`
(modelled by the `none` accumulator, which any first entry beats) and an
entry replaces the best only when strictly older, so the first entry in
iteration (= insertion) order among those with minimal timestamp wins. -/
def scanStep (acc : Option (CKey × ℚ)) (p : CKey × ℚ) : Option (CKey × ℚ) :=
  match acc with
  | none => some p
  | some b => if p.2 < b.2 then some p else acc

def scanOldest (m : List (CKey × ℚ)) : Option (CKey × ℚ) :=
  m.foldl scanStep none

/-- The two maps of `createWorld`: `chunkCache` and `chunkUse`. -/
structure CacheState (α : Type) where
  cache : List (CKey × α)
  use : List (CKey × ℚ)

def emptyCache {α : Type} : CacheState α := ⟨[], []⟩

/-- `getChunk(layer, cx, cy, now)` generalized over the generator and the
capacity exactly as the source composes them: hit updates the timestamp;
miss generates, inserts, and if the cache now exceeds the capacity evicts
the entry found by the linear timestamp scan. -/
def cacheGet {α : Type} (cap : Nat) (gen : CKey → α) (s : CacheState α) (k : CKey) (now : ℚ) :
    α × CacheState α :=
  match mapGet s.cache k with
  | some hit => (hit, { s with use := mapSet s.use k now })
  | none =>
    let ch := gen k
    let cache1 := mapSet s.cache k ch
    let use1 := mapSet s.use k now
    if cap < cache1.length then
      match scanOldest use1 with
      | some b => (ch, ⟨mapDelete cache1 b.1, mapDelete use1 b.1⟩)
      | none => (ch, ⟨cache1, use1⟩)
    else (ch, ⟨cache1, use1⟩)

def genChunkK (k : CKey) : Chunk := genChunk k.1 k.2.1 k.2.2

/-- The world's `getChunk`, instantiated with `genChunk` and `CHUNK_CACHE_MAX`. -/
def getChunk (s : CacheState Chunk) (layer cx cy : Int) (now : ℚ) : Chunk × CacheState Chunk :=
  cacheGet CHUNK_CACHE_MAX genChunkK s (layer, cx, cy) now

/-- Run a sequence of `get` requests `(key, now)` against the cache,
collecting the returned values. -/
def runTrace {α : Type} (cap : Nat) (gen : CKey → α) :
    CacheState α → List (CKey × ℚ) → List α × CacheState α
  | s, [] => ([], s)
  | s, o :: t =>
    let r := cacheGet cap gen s o.1 o.2
    let rest := runTrace cap gen r.2 t
    (r.1 :: rest.1, rest.2)

/-! ## Transition state machine (main module) -/

/-- The mutable frame state of the main module that the transition logic
touches: player position/velocity, the active layer, and the `trans`
record (`transitioning` flag, engaged entrance, source layer, progress,
duration, start position, cooldown). -/
structure GState where
  x : ℚ
  y : ℚ
  vx : ℚ
  vy : ℚ
  currentLayer : Int
  transitioning : Bool
  trEntrance : Option Entrance
  trSrcLayer : Option Int
  trProgress : ℚ
  trDuration : ℚ
  trStartX : ℚ
  trStartY : ℚ
  trCooldown : ℚ
  deriving DecidableEq, Repr

/-- `tryStartTransition(entrances, mvx, mvy)`: refuse while transitioning
or cooling down; otherwise engage the first entrance (in iteration order)
whose mouth contains the player and whose facing the movement enters,
setting progress to 0 (the `for`-with-`break` loop is `List.find?`). -/
def tryStartTransition (s : GState) (entrances : List Entrance) (mvx mvy : ℚ) : GState :=
  if s.transitioning ∨ s.trCooldown > 0 then s
  else
    match entrances.find? (fun e => pointInOrientedMouth s.x s.y e && movingInto e mvx mvy) with
    | none => s
    | some e =>
      { s with transitioning := true, trEntrance := some e,
               trSrcLayer := some s.currentLayer, trProgress := 0,
               trStartX := s.x, trStartY := s.y }

/-- `worldClamp()`: keep the player strictly inside the world
(`eps = 0.0001`). -/
def worldClampX (x : ℚ) : ℚ := clampQ x 0 ((WORLD_W : ℚ) - 1 / 10000)
def worldClampY (y : ℚ) : ℚ := clampQ y 0 ((WORLD_H : ℚ) - 1 / 10000)

/-- The per-frame update of `tick` after the velocity computation
(`mvx = player.vx`, `mvy = player.vy`): cooldown decrement, position
integration with `worldClamp`, then the transition-progress block.  If the
transition completes the active layer flips to the entrance's `toLayer`,
the transition is cleared, and the cooldown starts; the player fields are
not touched by that block.  `none` models the crash the source would have
if `trans.entrance` were `null` while `transitioning` (never reachable). -/
def tickAfterVel (s : GState) (dt : ℚ) : Option GState :=
  let mvx := s.vx
  let mvy := s.vy
  let s1 := if s.trCooldown > 0 then { s with trCooldown := max 0 (s.trCooldown - dt) } else s
  let s2 := { s1 with x := worldClampX (s1.x + mvx * dt), y := worldClampY (s1.y + mvy * dt) }
  if s2.transitioning then
    let p := s2.trProgress + dt / s2.trDuration
    if 1 ≤ p then
      match s2.trEntrance with
      | some e =>
        some { s2 with currentLayer := e.toLayer, transitioning := false,
                       trEntrance := none, trSrcLayer := none,
                       trProgress := p, trCooldown := PORTAL_transition_cooldown }
      | none => none
    else some { s2 with trProgress := p }
  else some s2


/-! ## Association-list lemmas for the cache model -/

theorem mapGet_none_iff {α : Type} (m : List (CKey × α)) (k : CKey) :
    mapGet m k = none ↔ k ∉ m.map Prod.fst := by
  induction m with
  | nil => simp [mapGet]
  | cons p t ih =>
    by_cases h : p.1 = k
    · simp [mapGet, h]
    · have hk : ¬ k = p.1 := fun hh => h hh.symm
      simp [mapGet, h, ih, hk]

theorem mapGet_some_mem {α : Type} {m : List (CKey × α)} {k : CKey} {v : α}
    (h : mapGet m k = some v) : (k, v) ∈ m := by
  induction m with
  | nil => simp [mapGet] at h
  | cons p t ih =>
    obtain ⟨pk, pv⟩ := p
    by_cases hp : pk = k
    · subst hp
      simp [mapGet] at h
      subst h
      exact List.mem_cons_self _ _
    · simp [mapGet, hp] at h
      exact List.mem_cons_of_mem _ (ih h)

theorem mapSet_of_not_mem {α : Type} {m : List (CKey × α)} {k : CKey} (v : α)
    (h : k ∉ m.map Prod.fst) : mapSet m k v = m ++ [(k, v)] := by
  induction m with
  | nil => simp [mapSet]
  | cons p t ih =>
    simp only [List.map_cons, List.mem_cons] at h
    push_neg at h
    simp [mapSet, Ne.symm h.1, ih h.2]

theorem mapSet_keys_of_mem {α : Type} {m : List (CKey × α)} {k : CKey} (v : α)
    (h : k ∈ m.map Prod.fst) : (mapSet m k v).map Prod.fst = m.map Prod.fst := by
  induction m with
  | nil => simp at h
  | cons p t ih =>
    by_cases hp : p.1 = k
    · simp [mapSet, hp]
    · have hk : k ∈ t.map Prod.fst := by
        simp only [List.map_cons, List.mem_cons] at h
        rcases h with h | h
        · exact absurd h.symm hp
        · exact h
      simp [mapSet, hp, ih hk]

theorem mapSet_mem_cases {α : Type} {m : List (CKey × α)} {k : CKey} {v : α} {p : CKey × α}
    (h : p ∈ mapSet m k v) : p = (k, v) ∨ p ∈ m := by
  induction m with
  | nil =>
    simp [mapSet] at h
    exact Or.inl h
  | cons q t ih =>
    by_cases hq : q.1 = k
    · simp [mapSet, hq] at h
      rcases h with h | h
      · exact Or.inl h
      · exact Or.inr (List.mem_cons_of_mem _ h)
    · simp [mapSet, hq] at h
      rcases h with h | h
      · exact Or.inr (by simp [h])
      · rcases ih h with h | h
        · exact Or.inl h
        · exact Or.inr (List.mem_cons_of_mem _ h)

theorem mapDelete_keys {α : Type} (m : List (CKey × α)) (k : CKey) :
    (mapDelete m k).map Prod.fst = (m.map Prod.fst).filter (fun x => x != k) := by
  induction m with
  | nil => simp [mapDelete]
  | cons p t ih =>
    by_cases hp : p.1 = k <;> simp [mapDelete, hp, ih, List.filter_cons]

theorem mapDelete_subset {α : Type} {m : List (CKey × α)} {k : CKey} {p : CKey × α}
    (h : p ∈ mapDelete m k) : p ∈ m := by
  induction m with
  | nil => simp [mapDelete] at h
  | cons q t ih =>
    by_cases hq : q.1 = k
    · simp [mapDelete, hq] at h
      exact List.mem_cons_of_mem _ (ih h)
    · simp [mapDelete, hq] at h
      rcases h with h | h
      · simp [h]
      · exact List.mem_cons_of_mem _ (ih h)

theorem mapDelete_of_not_mem {α : Type} {m : List (CKey × α)} {k : CKey}
    (h : k ∉ m.map Prod.fst) : mapDelete m k = m := by
  induction m with
  | nil => simp [mapDelete]
  | cons p t ih =>
    simp only [List.map_cons, List.mem_cons] at h
    push_neg at h
    simp [mapDelete, Ne.symm h.1, ih h.2]

theorem mapDelete_length_of_mem {α : Type} {m : List (CKey × α)} {k : CKey}
    (hn : (m.map Prod.fst).Nodup) (hk : k ∈ m.map Prod.fst) :
    (mapDelete m k).length + 1 = m.length := by
  induction m with
  | nil => simp at hk
  | cons p t ih =>
    simp only [List.map_cons, List.nodup_cons] at hn
    by_cases hp : p.1 = k
    · have hnk : k ∉ t.map Prod.fst := by rw [← hp]; exact hn.1
      simp [mapDelete, hp, mapDelete_of_not_mem hnk]
    · simp only [List.map_cons, List.mem_cons] at hk
      rcases hk with hk | hk
      · exact absurd hk.symm hp
      · have := ih hn.2 hk
        simp only [mapDelete, if_neg hp, List.length_cons]
        omega

theorem mapGet_delete_ne {α : Type} (m : List (CKey × α)) {ev k : CKey} (h : ev ≠ k) :
    mapGet (mapDelete m ev) k = mapGet m k := by
  induction m with
  | nil => simp [mapDelete]
  | cons p t ih =>
    by_cases hp : p.1 = ev
    · simp [mapDelete, hp, mapGet, h, ih]
    · by_cases hk : p.1 = k
      · simp [mapDelete, hp, mapGet, hk, Ne.symm h]
      · simp [mapDelete, hp, mapGet, hk, ih]

theorem mapGet_append_fresh {α : Type} {m : List (CKey × α)} {k : CKey} (v : α)
    (h : k ∉ m.map Prod.fst) : mapGet (m ++ [(k, v)]) k = some v := by
  induction m with
  | nil => simp [mapGet]
  | cons p t ih =>
    simp only [List.map_cons, List.mem_cons] at h
    push_neg at h
    simp [mapGet, Ne.symm h.1, ih h.2]

/-! ## Characterizing the eviction scan -/

/-- Folding the eviction scan from accumulator `b` yields either `b`
(when nothing in the list is strictly older) or the first entry of the
list that is strictly older than `b` and than everything before it, and
at least as old as everything after it. -/
theorem foldl_scanStep_spec (l : List (CKey × ℚ)) (b : CKey × ℚ) :
    ∃ r, l.foldl scanStep (some b) = some r ∧
      ((r = b ∧ ∀ p ∈ l, b.2 ≤ p.2) ∨
       (∃ l1 l2, l = l1 ++ r :: l2 ∧ r.2 < b.2 ∧
         (∀ p ∈ l1, r.2 < p.2) ∧ (∀ p ∈ l2, r.2 ≤ p.2))) := by
  induction l generalizing b with
  | nil => exact ⟨b, rfl, Or.inl ⟨rfl, by simp⟩⟩
  | cons p t ih =>
    by_cases hp : p.2 < b.2
    · have hstep : (p :: t).foldl scanStep (some b) = t.foldl scanStep (some p) := by
        simp [List.foldl_cons, scanStep, hp]
      obtain ⟨r, hr, hcase⟩ := ih p
      refine ⟨r, by rw [hstep]; exact hr, Or.inr ?_⟩
      rcases hcase with ⟨rfl, hmin⟩ | ⟨l1, l2, rfl, hlt, hbefore, hafter⟩
      · exact ⟨[], t, rfl, hp, by simp, hmin⟩
      · refine ⟨p :: l1, l2, rfl, lt_trans hlt hp, ?_, hafter⟩
        intro q hq
        rcases List.mem_cons.1 hq with rfl | hq
        · exact hlt
        · exact hbefore q hq
    · have hstep : (p :: t).foldl scanStep (some b) = t.foldl scanStep (some b) := by
        simp [List.foldl_cons, scanStep, hp]
      push_neg at hp
      obtain ⟨r, hr, hcase⟩ := ih b
      refine ⟨r, by rw [hstep]; exact hr, ?_⟩
      rcases hcase with ⟨rfl, hmin⟩ | ⟨l1, l2, rfl, hlt, hbefore, hafter⟩
      · refine Or.inl ⟨rfl, ?_⟩
        intro q hq
        rcases List.mem_cons.1 hq with rfl | hq
        · exact hp
        · exact hmin q hq
      · refine Or.inr ⟨p :: l1, l2, rfl, hlt, ?_, hafter⟩
        intro q hq
        rcases List.mem_cons.1 hq with rfl | hq
        · exact lt_of_lt_of_le hlt hp
        · exact hbefore q hq

/-- `scanOldest` on a nonempty list returns the first entry holding the
minimal timestamp: strictly older than everything before it, at least as
old as everything after it. -/
theorem scanOldest_spec (m : List (CKey × ℚ)) (hne : m ≠ []) :
    ∃ r l1 l2, scanOldest m = some r ∧ m = l1 ++ r :: l2 ∧
      (∀ p ∈ l1, r.2 < p.2) ∧ (∀ p ∈ l2, r.2 ≤ p.2) := by
  obtain ⟨x, xs, rfl⟩ := List.exists_cons_of_ne_nil hne
  have hx : scanOldest (x :: xs) = xs.foldl scanStep (some x) := by
    simp [scanOldest, List.foldl_cons, scanStep]
  obtain ⟨r, hr, hcase⟩ := foldl_scanStep_spec xs x
  rcases hcase with ⟨rfl, hmin⟩ | ⟨l1, l2, rfl, hlt, hbefore, hafter⟩
  · exact ⟨r, [], xs, by rw [hx]; exact hr, rfl, by simp, hmin⟩
  · refine ⟨r, x :: l1, l2, by rw [hx]; exact hr, rfl, ?_, hafter⟩
    intro q hq
    rcases List.mem_cons.1 hq with rfl | hq
    · exact hlt
    · exact hbefore q hq

/-! ## Cache correctness invariants -/

/-- Every cached value is what the generator produces for its key. -/
def CacheGood {α : Type} (gen : CKey → α) (s : CacheState α) : Prop :=
  ∀ p ∈ s.cache, p.2 = gen p.1

/-- The structural cache invariant: both maps share the same key sequence,
keys are unique, and the entry count is within the capacity. -/
def CacheInv {α : Type} (cap : Nat) (s : CacheState α) : Prop :=
  s.cache.map Prod.fst = s.use.map Prod.fst ∧
  (s.cache.map Prod.fst).Nodup ∧
  s.cache.length ≤ cap

theorem cacheGet_fst {α : Type} (cap : Nat) (gen : CKey → α) (s : CacheState α)
    (k : CKey) (now : ℚ) (h : CacheGood gen s) :
    (cacheGet cap gen s k now).1 = gen k := by
  unfold cacheGet
  cases hget : mapGet s.cache k with
  | some hit => exact h _ (mapGet_some_mem hget)
  | none =>
    simp only
    split
    · split <;> rfl
    · rfl

theorem cacheGet_good {α : Type} (cap : Nat) (gen : CKey → α) (s : CacheState α)
    (k : CKey) (now : ℚ) (h : CacheGood gen s) :
    CacheGood gen (cacheGet cap gen s k now).2 := by
  unfold cacheGet
  cases hget : mapGet s.cache k with
  | none =>
    have hset : CacheGood gen ⟨mapSet s.cache k (gen k), mapSet s.use k now⟩ := by
      intro p hp
      rcases mapSet_mem_cases hp with rfl | hp
      · rfl
      · exact h p hp
    simp only
    split
    · split
      · intro p hp
        exact hset p (mapDelete_subset hp)
      · exact hset
    · exact hset
  | some hit =>
    exact h

theorem runTrace_good {α : Type} (cap : Nat) (gen : CKey → α) (ops : List (CKey × ℚ)) :
    ∀ s : CacheState α, CacheGood gen s →
      (runTrace cap gen s ops).1 = ops.map (fun o => gen o.1) ∧
      CacheGood gen (runTrace cap gen s ops).2 := by
  induction ops with
  | nil => intro s h; exact ⟨rfl, h⟩
  | cons o t ih =>
    intro s h
    have h1 := cacheGet_fst cap gen s o.1 o.2 h
    have h2 := cacheGet_good cap gen s o.1 o.2 h
    obtain ⟨ht1, ht2⟩ := ih _ h2
    constructor
    · simp only [runTrace, List.map_cons]
      rw [h1, ht1]
    · exact ht2

theorem cacheGet_inv {α : Type} (cap : Nat) (gen : CKey → α) (s : CacheState α)
    (k : CKey) (now : ℚ) (h : CacheInv cap s) :
    CacheInv cap (cacheGet cap gen s k now).2 := by
  obtain ⟨hkeys, hnodup, hlen⟩ := h
  unfold cacheGet
  cases hget : mapGet s.cache k with
  | some hit =>
    have hkc : k ∈ s.cache.map Prod.fst := by
      by_contra hc
      rw [← mapGet_none_iff] at hc
      rw [hc] at hget
      cases hget
    have hku : k ∈ s.use.map Prod.fst := hkeys ▸ hkc
    exact ⟨by simpa [mapSet_keys_of_mem now hku] using hkeys, hnodup, hlen⟩
  | none =>
    have hkc : k ∉ s.cache.map Prod.fst := (mapGet_none_iff _ _).1 hget
    have hku : k ∉ s.use.map Prod.fst := hkeys ▸ hkc
    have hc1 : mapSet s.cache k (gen k) = s.cache ++ [(k, gen k)] := mapSet_of_not_mem _ hkc
    have hu1 : mapSet s.use k now = s.use ++ [(k, now)] := mapSet_of_not_mem _ hku
    have hkeys1 : (mapSet s.cache k (gen k)).map Prod.fst = (mapSet s.use k now).map Prod.fst := by
      rw [hc1, hu1]
      simp [hkeys]
    have hnodup1 : ((mapSet s.cache k (gen k)).map Prod.fst).Nodup := by
      rw [hc1]
      simp only [List.map_append, List.map_cons, List.map_nil]
      rw [List.nodup_append]
      refine ⟨hnodup, List.nodup_singleton k, ?_⟩
      intro a ha hb
      simp only [List.mem_singleton] at hb
      exact hkc (hb ▸ ha)
    simp only
    split
    · rename_i hover
      have hne : mapSet s.use k now ≠ [] := by
        rw [hu1]
        simp
      obtain ⟨r, l1, l2, hscan, hsplit, _, _⟩ := scanOldest_spec _ hne
      rw [hscan]
      have hrmem : r ∈ mapSet s.use k now := by
        rw [hsplit]
        exact List.mem_append.2 (Or.inr (List.mem_cons_self _ _))
      have hrkey : r.1 ∈ (mapSet s.cache k (gen k)).map Prod.fst := by
        rw [hkeys1]
        exact List.mem_map.2 ⟨r, hrmem, rfl⟩
      refine ⟨?_, ?_, ?_⟩
      · rw [mapDelete_keys, mapDelete_keys, hkeys1]
      · rw [mapDelete_keys]
        exact List.Nodup.filter _ hnodup1
      · show (mapDelete (mapSet s.cache k (gen k)) r.1).length ≤ cap
        have hdl := mapDelete_length_of_mem hnodup1 hrkey
        have hlen1 : (mapSet s.cache k (gen k)).length = s.cache.length + 1 := by
          rw [hc1]
          simp
        omega
    · rename_i hover
      push_neg at hover
      have hlen1 : (mapSet s.cache k (gen k)).length = s.cache.length + 1 := by
        rw [hc1]
        simp
      exact ⟨hkeys1, hnodup1, hover⟩

theorem runTrace_inv {α : Type} (cap : Nat) (gen : CKey → α) (ops : List (CKey × ℚ)) :
    ∀ s : CacheState α, CacheInv cap s → CacheInv cap (runTrace cap gen s ops).2 := by
  induction ops with
  | nil => intro s h; exact h
  | cons o t ih =>
    intro s h
    exact ih _ (cacheGet_inv cap gen s o.1 o.2 h)

/-- Claim C1: chunk generation is pure.  For every sequence of `getChunk`
requests (arbitrary layers and chunk coordinates, arbitrary `now`
timestamps) executed against the real cache (`CHUNK_CACHE_MAX`,
`genChunkK`) from the empty cache, every call returns exactly
`genChunk layer cx cy` — the same terrain pixel buffer byte for byte and
the same entrance list — regardless of the `now` values, of prior cache
contents, and of any evictions and regenerations in between.  In
particular any two calls with the same `(layer, cx, cy)` anywhere in the
sequence produce identical results. -/
theorem C1_genChunk_deterministic (ops : List (CKey × ℚ)) :
    (runTrace CHUNK_CACHE_MAX genChunkK emptyCache ops).1 =
      ops.map (fun o => genChunk o.1.1 o.1.2.1 o.1.2.2) :=
  (runTrace_good CHUNK_CACHE_MAX genChunkK ops emptyCache (fun p hp => by cases hp)).1

/-- Claim C6: the cache bound.  After any finite sequence of `getChunk`
calls starting from the empty cache, the number of cached entries is at
most `CHUNK_CACHE_MAX` (520); since the sequence is arbitrary, every
intermediate state (any prefix) satisfies the same bound. -/
theorem C6_cache_bound (ops : List (CKey × ℚ)) :
    (runTrace CHUNK_CACHE_MAX genChunkK emptyCache ops).2.cache.length ≤ CHUNK_CACHE_MAX :=
  (runTrace_inv CHUNK_CACHE_MAX genChunkK ops emptyCache
    ⟨rfl, List.nodup_nil, by simp [emptyCache]⟩).2.2

/-- Claim C2: LRU eviction on overflow.  If `cacheGet` misses on key `k`,
the maps are consistent (same unique keys), the cache is at capacity
(`cap ≤ size`, so the insertion exceeds it), `cap ≥ 1`, and every stored
timestamp is at most `now` (monotone time), then exactly one entry is
evicted: the scan selects an entry `(ev, tev)` of the old cache holding
the minimal last-access timestamp, with ties broken by insertion order
(everything before it in the map is strictly younger... strictly older
comparisons as stated), the evicted key is never the key just inserted,
the resulting cache is the insertion followed by that one deletion, the
entry count is unchanged (one in, one out), and the just-inserted entry
is still present afterwards. -/
theorem C2_lru_eviction {α : Type} (cap : Nat) (gen : CKey → α) (s : CacheState α)
    (k : CKey) (now : ℚ)
    (hcap : 1 ≤ cap)
    (hmiss : mapGet s.cache k = none)
    (hkeys : s.cache.map Prod.fst = s.use.map Prod.fst)
    (hnodup : (s.cache.map Prod.fst).Nodup)
    (hfull : cap ≤ s.cache.length)
    (hmono : ∀ p ∈ s.use, p.2 ≤ now) :
    ∃ ev tev,
      scanOldest (mapSet s.use k now) = some (ev, tev) ∧
      ev ≠ k ∧
      (ev, tev) ∈ s.use ∧
      (∀ p ∈ s.use, tev ≤ p.2) ∧
      (∃ l1 l2, s.use = l1 ++ (ev, tev) :: l2 ∧
        (∀ p ∈ l1, tev < p.2) ∧ (∀ p ∈ l2, tev ≤ p.2)) ∧
      (cacheGet cap gen s k now).2.cache = mapDelete (mapSet s.cache k (gen k)) ev ∧
      (cacheGet cap gen s k now).2.cache.length = s.cache.length ∧
      mapGet (cacheGet cap gen s k now).2.cache k = some (gen k) := by
  have hkc : k ∉ s.cache.map Prod.fst := (mapGet_none_iff _ _).1 hmiss
  have hku : k ∉ s.use.map Prod.fst := hkeys ▸ hkc
  have hu1 : mapSet s.use k now = s.use ++ [(k, now)] := mapSet_of_not_mem _ hku
  have hc1 : mapSet s.cache k (gen k) = s.cache ++ [(k, gen k)] := mapSet_of_not_mem _ hkc
  have hlencu : s.cache.length = s.use.length := by
    have := congrArg List.length hkeys
    simpa using this
  have husene : s.use ≠ [] := by
    intro h0
    rw [h0] at hlencu
    simp only [List.length_nil] at hlencu
    omega
  have hne : mapSet s.use k now ≠ [] := by
    rw [hu1]
    simp
  obtain ⟨r, l1, l2, hscan, hsplit, hbefore, hafter⟩ := scanOldest_spec _ hne
  rw [hu1] at hsplit
  -- locate r: it cannot be the appended entry, so it lies inside s.use
  have hloc : ∃ l2t, s.use = l1 ++ r :: l2t ∧ l2 = l2t ++ [(k, now)] := by
    rcases l2.eq_nil_or_concat' with rfl | ⟨l2t, z, rfl⟩
    · -- r would be the appended (k, now): contradicts monotone time on nonempty s.use
      obtain ⟨hpre, hsing⟩ := List.append_inj' hsplit (by simp)
      have hr : r = (k, now) := by
        have := hsing
        simp at this
        exact this.symm
      obtain ⟨x, xs, hx⟩ := List.exists_cons_of_ne_nil husene
      have hxmem : x ∈ s.use := by rw [hx]; exact List.mem_cons_self _ _
      have h1 : now < x.2 := by
        have := hbefore x (by rw [← hpre]; exact hxmem)
        rw [hr] at this
        exact this
      have h2 : x.2 ≤ now := hmono x hxmem
      exact absurd h1 (not_lt.2 h2)
    · have heq : s.use ++ [(k, now)] = (l1 ++ r :: l2t) ++ [z] := by
        rw [hsplit]
        simp
      obtain ⟨hpre, hsing⟩ := List.append_inj' heq (by simp)
      exact ⟨l2t, hpre, by
        have : z = (k, now) := by
          have := hsing
          simp at this
          exact this.symm
        rw [this]⟩
  obtain ⟨l2t, huse, hl2⟩ := hloc
  have hrmem : r ∈ s.use := by
    rw [huse]
    exact List.mem_append.2 (Or.inr (List.mem_cons_self _ _))
  have hrkeyuse : r.1 ∈ s.use.map Prod.fst := List.mem_map.2 ⟨r, hrmem, rfl⟩
  have hrk : r.1 ≠ k := by
    intro h0
    exact hku (h0 ▸ hrkeyuse)
  -- keys and nodup of the inserted cache
  have hkeys1 : (mapSet s.cache k (gen k)).map Prod.fst = s.cache.map Prod.fst ++ [k] := by
    rw [hc1]
    simp
  have hnodup1 : ((mapSet s.cache k (gen k)).map Prod.fst).Nodup := by
    rw [hkeys1, List.nodup_append]
    refine ⟨hnodup, List.nodup_singleton k, ?_⟩
    intro a ha hb
    simp only [List.mem_singleton] at hb
    exact hkc (hb ▸ ha)
  have hrkey1 : r.1 ∈ (mapSet s.cache k (gen k)).map Prod.fst := by
    rw [hkeys1, hkeys]
    exact List.mem_append.2 (Or.inl hrkeyuse)
  have hover : cap < (mapSet s.cache k (gen k)).length := by
    rw [hc1]
    simp only [List.length_append, List.length_cons, List.length_nil]
    omega
  -- the result of the call
  have hres : (cacheGet cap gen s k now).2 =
      ⟨mapDelete (mapSet s.cache k (gen k)) r.1, mapDelete (mapSet s.use k now) r.1⟩ := by
    unfold cacheGet
    rw [hmiss]
    simp only [if_pos hover, hscan]
  refine ⟨r.1, r.2, by rw [hscan], hrk, hrmem, ?_, ?_, ?_, ?_, ?_⟩
  · -- minimality over the whole old map
    intro p hp
    rw [huse] at hp
    rcases List.mem_append.1 hp with hp | hp
    · exact le_of_lt (hbefore p hp)
    · rcases List.mem_cons.1 hp with rfl | hp
      · exact le_refl _
      · exact hafter p (by rw [hl2]; exact List.mem_append.2 (Or.inl hp))
  · -- tie-break: first minimal entry in insertion order
    refine ⟨l1, l2t, huse, hbefore, ?_⟩
    intro p hp
    exact hafter p (by rw [hl2]; exact List.mem_append.2 (Or.inl hp))
  · rw [hres]
  · rw [hres]
    show (mapDelete (mapSet s.cache k (gen k)) r.1).length = s.cache.length
    have hdl := mapDelete_length_of_mem hnodup1 hrkey1
    have hlen1 : (mapSet s.cache k (gen k)).length = s.cache.length + 1 := by
      rw [hc1]
      simp
    omega
  · rw [hres]
    show mapGet (mapDelete (mapSet s.cache k (gen k)) r.1) k = some (gen k)
    rw [mapGet_delete_ne _ hrk, hc1]
    exact mapGet_append_fresh _ hkc

/-- Concrete keys and a capacity-2 cache state holding chunks A and B
(accessed at times 1 and 2) for the eviction scenario. -/
def cacheKeyA : CKey := (0, 0, 0)
def cacheKeyB : CKey := (0, 1, 0)
def cacheKeyC : CKey := (0, 2, 0)
def cacheS2 : CacheState Nat :=
  ⟨[(cacheKeyA, 11), (cacheKeyB, 22)], [(cacheKeyA, 1), (cacheKeyB, 2)]⟩

/-- Witness for C2: with capacity 2, after `get A` (t=1) and `get B` (t=2),
a `get C` at t=3 evicts A — the oldest entry, not the just-inserted one —
and leaves exactly B and C cached. -/
theorem C2_lru_eviction_witness :
    ((1 : Nat) ≤ 2 ∧
     mapGet cacheS2.cache cacheKeyC = none ∧
     cacheS2.cache.map Prod.fst = cacheS2.use.map Prod.fst ∧
     (cacheS2.cache.map Prod.fst).Nodup ∧
     2 ≤ cacheS2.cache.length ∧
     (∀ p ∈ cacheS2.use, p.2 ≤ (3 : ℚ))) ∧
    (∃ ev tev,
      scanOldest (mapSet cacheS2.use cacheKeyC 3) = some (ev, tev) ∧
      ev ≠ cacheKeyC ∧
      (ev, tev) ∈ cacheS2.use ∧
      (∀ p ∈ cacheS2.use, tev ≤ p.2) ∧
      (∃ l1 l2, cacheS2.use = l1 ++ (ev, tev) :: l2 ∧
        (∀ p ∈ l1, tev < p.2) ∧ (∀ p ∈ l2, tev ≤ p.2)) ∧
      (cacheGet 2 (fun _ => 99) cacheS2 cacheKeyC 3).2.cache =
        mapDelete (mapSet cacheS2.cache cacheKeyC ((fun _ => 99) cacheKeyC)) ev ∧
      (cacheGet 2 (fun _ => 99) cacheS2 cacheKeyC 3).2.cache.length = cacheS2.cache.length ∧
      mapGet (cacheGet 2 (fun _ => 99) cacheS2 cacheKeyC 3).2.cache cacheKeyC =
        some ((fun _ => 99) cacheKeyC)) ∧
    (cacheGet 2 (fun _ => 99) cacheS2 cacheKeyC 3).2.cache = [(cacheKeyB, 22), (cacheKeyC, 99)] :=
  ⟨⟨by decide, by decide, by decide, by decide, by decide, by decide⟩,
   C2_lru_eviction 2 (fun _ => 99) cacheS2 cacheKeyC 3 (by decide) (by decide) (by decide)
     (by decide) (by decide) (by decide),
   by decide⟩

/-! ## Portal planner lemmas -/

theorem portalGroupAt_some {cx cy g : Int} (h : portalGroupAt cx cy = some g) :
    cx % 2 = 0 ∧ cy % 2 = 0 ∧ g = (Int.fdiv cx 2 + Int.fdiv cy 2) % 2 ∧ (g = 0 ∨ g = 1) := by
  unfold portalGroupAt at h
  split_ifs at h with hc
  push_neg at hc
  injection h with h'
  subst h'
  refine ⟨by omega, by omega, rfl, by omega⟩

theorem entrancesForChunk_length (layer cx cy : Int) :
    (entrancesForChunk layer cx cy).length ≤ 1 := by
  unfold entrancesForChunk
  cases hg : portalGroupAt cx cy with
  | none => simp
  | some g =>
    dsimp only
    split_ifs <;> simp

/-- Membership characterization for `entrancesForChunk`: an entrance is
only produced at a valid group for a layer of that group's pair, it
records the queried layer, and its `toLayer` is the other layer of the
pair. -/
theorem mem_entrancesForChunk {layer cx cy : Int} {e : Entrance}
    (he : e ∈ entrancesForChunk layer cx cy) :
    ∃ g, portalGroupAt cx cy = some g ∧
      ((g = 0 ∧ (layer = 0 ∨ layer = 1)) ∨ (g = 1 ∧ (layer = 1 ∨ layer = 2))) ∧
      e.layer = layer ∧ e.toLayer = (if g = 0 then 1 else 3) - layer := by
  unfold entrancesForChunk at he
  cases hg : portalGroupAt cx cy with
  | none => rw [hg] at he; simp at he
  | some g =>
    rw [hg] at he
    dsimp only at he
    by_cases hvp : (g = 0 ∧ (layer = 0 ∨ layer = 1)) ∨ (g = 1 ∧ (layer = 1 ∨ layer = 2))
    · rw [if_neg (not_not_intro hvp)] at he
      refine ⟨g, rfl, hvp, ?_⟩
      by_cases hm : portalModeForSite cx cy g = "oneway"
      · rw [if_pos hm] at he
        by_cases hls : layer ≠ oneWaySourceLayer cx cy g
        · rw [if_pos hls] at he
          simp at he
        · rw [if_neg hls] at he
          push_neg at hls
          simp only [List.mem_singleton] at he
          subst he
          refine ⟨hls.symm, ?_⟩
          show (if oneWaySourceLayer cx cy g = (if g = 0 then 0 else 1)
                then (if g = 0 then 1 else 2) else (if g = 0 then 0 else 1)) =
               (if g = 0 then 1 else 3) - layer
          rw [← hls]
          rcases hvp with ⟨rfl, hl⟩ | ⟨rfl, hl⟩ <;> split_ifs <;> omega
      · rw [if_neg hm] at he
        simp only [List.mem_singleton] at he
        subst he
        refine ⟨rfl, ?_⟩
        show (if layer = (if g = 0 then 0 else 1)
              then (if g = 0 then 1 else 2) else (if g = 0 then 0 else 1)) =
             (if g = 0 then 1 else 3) - layer
        rcases hvp with ⟨rfl, hl⟩ | ⟨rfl, hl⟩ <;> split_ifs <;> omega
    · rw [if_pos hvp] at he
      simp at he

/-- The entrance record built by the twoway branch of `entrancesForChunk`
(statement helper; it mirrors that branch verbatim). -/
def twowayEntrance (layer cx cy g : Int) : Entrance :=
  let shared := portalSharedDef cx cy g
  let a : Int := if g = 0 then 0 else 1
  let b : Int := if g = 0 then 1 else 2
  let toL := if layer = a then b else a
  let dIdx := if layer = b then flipDirIdx shared.dirIdx else shared.dirIdx
  { id := shared.idBase ++ ":twoway:" ++ toString layer ++ "<->" ++ toString toL
    cx := shared.cx, cy := shared.cy, group := shared.group
    x := shared.x, y := shared.y
    dirIdx := dIdx, dir := DIRS.getD dIdx dirDown
    mouthW := shared.mouthW, mouthH := shared.mouthH, depth := shared.depth
    mode := portalModeForSite cx cy g, layer := layer, toLayer := toL }

/-- The entrance record built by the oneway branch of `entrancesForChunk`
(statement helper; it mirrors that branch verbatim). -/
def onewayEntrance (cx cy g : Int) : Entrance :=
  let shared := portalSharedDef cx cy g
  let a : Int := if g = 0 then 0 else 1
  let b : Int := if g = 0 then 1 else 2
  let src := oneWaySourceLayer cx cy g
  let dst := if src = a then b else a
  { id := shared.idBase ++ ":oneway:" ++ toString src ++ "->" ++ toString dst
    cx := shared.cx, cy := shared.cy, group := shared.group
    x := shared.x, y := shared.y
    dirIdx := shared.dirIdx, dir := shared.dir
    mouthW := shared.mouthW, mouthH := shared.mouthH, depth := shared.depth
    mode := portalModeForSite cx cy g, layer := src, toLayer := dst }

theorem entrancesForChunk_twoway_eq {layer cx cy g : Int}
    (hg : portalGroupAt cx cy = some g)
    (hm : portalModeForSite cx cy g = "twoway")
    (hvp : (g = 0 ∧ (layer = 0 ∨ layer = 1)) ∨ (g = 1 ∧ (layer = 1 ∨ layer = 2))) :
    entrancesForChunk layer cx cy = [twowayEntrance layer cx cy g] := by
  unfold entrancesForChunk twowayEntrance
  rw [hg]
  dsimp only
  rw [if_neg (not_not_intro hvp), if_neg (by rw [hm]; decide)]

theorem entrancesForChunk_oneway_eq {cx cy g : Int}
    (hg : portalGroupAt cx cy = some g)
    (hm : portalModeForSite cx cy g = "oneway")
    (hvp : (g = 0 ∧ (oneWaySourceLayer cx cy g = 0 ∨ oneWaySourceLayer cx cy g = 1)) ∨
           (g = 1 ∧ (oneWaySourceLayer cx cy g = 1 ∨ oneWaySourceLayer cx cy g = 2))) :
    entrancesForChunk (oneWaySourceLayer cx cy g) cx cy = [onewayEntrance cx cy g] := by
  unfold entrancesForChunk onewayEntrance
  rw [hg]
  dsimp only
  rw [if_neg (not_not_intro hvp), if_pos hm, if_neg (by simp)]

theorem oneWaySourceLayer_mem_pair (cx cy g : Int) (hg : g = 0 ∨ g = 1) :
    (g = 0 ∧ (oneWaySourceLayer cx cy g = 0 ∨ oneWaySourceLayer cx cy g = 1)) ∨
    (g = 1 ∧ (oneWaySourceLayer cx cy g = 1 ∨ oneWaySourceLayer cx cy g = 2)) := by
  unfold oneWaySourceLayer
  rcases hg with rfl | rfl
  · refine Or.inl ⟨rfl, ?_⟩
    rw [if_pos rfl]
    split_ifs <;> simp
  · refine Or.inr ⟨rfl, ?_⟩
    rw [if_neg (by norm_num)]
    split_ifs <;> simp

/-- Evaluation of the mode hash at site (0, 0): it selects `oneway`. -/
theorem portalMode_site00 : portalModeForSite 0 0 0 = "oneway" := by
  unfold portalModeForSite rand01
  rw [show hash32 0 0 (9001 + 0 * 101) = 358910477 from by decide]
  dsimp only
  rw [show xorshift 358910477 = 8940543 from by decide]
  rw [if_pos (by norm_num [PORTAL_MODE_oneWayChance])]

/-- Evaluation of the mode hash at site (4, 0): it selects `twoway`. -/
theorem portalMode_site40 : portalModeForSite 4 0 0 = "twoway" := by
  unfold portalModeForSite rand01
  rw [show hash32 4 0 (9001 + 0 * 101) = 2926024625 from by decide]
  dsimp only
  rw [show xorshift 2926024625 = 3466766041 from by decide]
  rw [if_neg (by norm_num [PORTAL_MODE_oneWayChance])]

/-- Claim C3: for every layer and chunk coordinate, `entrancesForChunk`
returns at most one entrance; any returned entrance requires `cx` and
`cy` both even, the queried layer must belong to the pair selected by the
parity of `cx/2 + cy/2` (parity 0 pairs layers 0 and 1, parity 1 pairs
layers 1 and 2), and the entrance's `toLayer` is the other layer of that
pair.  In all other cases the function totally returns the empty list. -/
theorem C3_entrance_eligibility (layer cx cy : Int) :
    (entrancesForChunk layer cx cy).length ≤ 1 ∧
    ∀ e ∈ entrancesForChunk layer cx cy,
      cx % 2 = 0 ∧ cy % 2 = 0 ∧
      ((Int.fdiv cx 2 + Int.fdiv cy 2) % 2 = 0 →
        (layer = 0 ∨ layer = 1) ∧ e.toLayer = 1 - layer) ∧
      ((Int.fdiv cx 2 + Int.fdiv cy 2) % 2 = 1 →
        (layer = 1 ∨ layer = 2) ∧ e.toLayer = 3 - layer) := by
  refine ⟨entrancesForChunk_length layer cx cy, ?_⟩
  intro e he
  obtain ⟨g, hg, hvp, _, htl⟩ := mem_entrancesForChunk he
  obtain ⟨hx, hy, hgval, hg01⟩ := portalGroupAt_some hg
  refine ⟨hx, hy, ?_, ?_⟩
  · intro hp
    have hgz : g = 0 := by omega
    subst hgz
    rcases hvp with ⟨_, hl⟩ | ⟨h01, _⟩
    · exact ⟨hl, by simpa using htl⟩
    · exact absurd h01 (by norm_num)
  · intro hp
    have hgo : g = 1 := by omega
    subst hgo
    rcases hvp with ⟨h10, _⟩ | ⟨_, hl⟩
    · exact absurd h10 (by norm_num)
    · exact ⟨hl, by simpa using htl⟩

/-- The entrance list at site (0, 0) queried on layer 1 (the one-way
source side there). -/
theorem entrances_site00_layer1 : entrancesForChunk 1 0 0 = [onewayEntrance 0 0 0] := by
  have hsrc : oneWaySourceLayer 0 0 0 = 1 := by decide
  have h := @entrancesForChunk_oneway_eq 0 0 0
    (by decide) portalMode_site00 (by rw [hsrc]; norm_num)
  rwa [hsrc] at h

/-- Witness for C3 at the one-way site (0, 0) queried on layer 1. -/
theorem C3_entrance_eligibility_witness :
    (onewayEntrance 0 0 0 ∈ entrancesForChunk 1 0 0) ∧
    ((0 : Int) % 2 = 0 ∧ (0 : Int) % 2 = 0 ∧
     ((Int.fdiv (0 : Int) 2 + Int.fdiv (0 : Int) 2) % 2 = 0 →
       ((1 : Int) = 0 ∨ (1 : Int) = 1) ∧ (onewayEntrance 0 0 0).toLayer = 1 - 1) ∧
     ((Int.fdiv (0 : Int) 2 + Int.fdiv (0 : Int) 2) % 2 = 1 →
       ((1 : Int) = 1 ∨ (1 : Int) = 2) ∧ (onewayEntrance 0 0 0).toLayer = 3 - 1)) := by
  have hmem : onewayEntrance 0 0 0 ∈ entrancesForChunk 1 0 0 := by
    rw [entrances_site00_layer1]
    exact List.mem_singleton_self _
  exact ⟨hmem, (C3_entrance_eligibility 1 0 0).2 _ hmem⟩

/-- Claim C4: two-way mirroring.  At any portal-eligible site whose mode
is `twoway`, querying each of the two connected layers returns exactly
one entrance, the direction index on the higher layer of the pair is
`(lowerIndex + 2) % 4`, and the world position, mouth width/height and
depth agree on both sides. -/
theorem C4_twoway_mirroring (cx cy g : Int)
    (hg : portalGroupAt cx cy = some g)
    (hm : portalModeForSite cx cy g = "twoway") :
    ∃ ea eb,
      entrancesForChunk (if g = 0 then 0 else 1) cx cy = [ea] ∧
      entrancesForChunk (if g = 0 then 1 else 2) cx cy = [eb] ∧
      eb.dirIdx = (ea.dirIdx + 2) % 4 ∧
      ea.x = eb.x ∧ ea.y = eb.y ∧
      ea.mouthW = eb.mouthW ∧ ea.mouthH = eb.mouthH ∧ ea.depth = eb.depth := by
  obtain ⟨hx, hy, hgval, hg01⟩ := portalGroupAt_some hg
  rcases hg01 with rfl | rfl
  · have h1 : (if (0 : Int) = 0 then (0 : Int) else 1) = 0 := by norm_num
    have h2 : (if (0 : Int) = 0 then (1 : Int) else 2) = 1 := by norm_num
    rw [h1, h2]
    refine ⟨twowayEntrance 0 cx cy 0, twowayEntrance 1 cx cy 0,
      entrancesForChunk_twoway_eq hg hm (by norm_num),
      entrancesForChunk_twoway_eq hg hm (by norm_num), ?_, rfl, rfl, rfl, rfl, rfl⟩
    simp [twowayEntrance, flipDirIdx]
  · have h1 : (if (1 : Int) = 0 then (0 : Int) else 1) = 1 := by norm_num
    have h2 : (if (1 : Int) = 0 then (1 : Int) else 2) = 2 := by norm_num
    rw [h1, h2]
    refine ⟨twowayEntrance 1 cx cy 1, twowayEntrance 2 cx cy 1,
      entrancesForChunk_twoway_eq hg hm (by norm_num),
      entrancesForChunk_twoway_eq hg hm (by norm_num), ?_, rfl, rfl, rfl, rfl, rfl⟩
    simp [twowayEntrance, flipDirIdx]

/-- Witness for C4 at the two-way site (4, 0) (group 0, layers 0 and 1). -/
theorem C4_twoway_mirroring_witness :
    (portalGroupAt 4 0 = some 0 ∧ portalModeForSite 4 0 0 = "twoway") ∧
    (∃ ea eb,
      entrancesForChunk (if (0 : Int) = 0 then 0 else 1) 4 0 = [ea] ∧
      entrancesForChunk (if (0 : Int) = 0 then 1 else 2) 4 0 = [eb] ∧
      eb.dirIdx = (ea.dirIdx + 2) % 4 ∧
      ea.x = eb.x ∧ ea.y = eb.y ∧
      ea.mouthW = eb.mouthW ∧ ea.mouthH = eb.mouthH ∧ ea.depth = eb.depth) :=
  ⟨⟨by decide, portalMode_site40⟩, C4_twoway_mirroring 4 0 0 (by decide) portalMode_site40⟩

/-- Claim C5: one-way portals.  At any portal-eligible site whose mode is
`oneway`, the entrance is returned exactly when the queried layer equals
the hash-derived source layer; the descriptor records the source layer
and its `toLayer` is the other layer of the pair; every other queried
layer (the pair's other layer included) gets the empty list. -/
theorem C5_oneway_source (cx cy g : Int)
    (hg : portalGroupAt cx cy = some g)
    (hm : portalModeForSite cx cy g = "oneway") :
    entrancesForChunk (oneWaySourceLayer cx cy g) cx cy = [onewayEntrance cx cy g] ∧
    (onewayEntrance cx cy g).layer = oneWaySourceLayer cx cy g ∧
    (onewayEntrance cx cy g).toLayer = (if g = 0 then 1 else 3) - oneWaySourceLayer cx cy g ∧
    ∀ layer : Int, layer ≠ oneWaySourceLayer cx cy g → entrancesForChunk layer cx cy = [] := by
  obtain ⟨hx, hy, hgval, hg01⟩ := portalGroupAt_some hg
  have hvp := oneWaySourceLayer_mem_pair cx cy g hg01
  refine ⟨entrancesForChunk_oneway_eq hg hm hvp, rfl, ?_, ?_⟩
  · show (if oneWaySourceLayer cx cy g = (if g = 0 then 0 else 1)
          then (if g = 0 then 1 else 2) else (if g = 0 then 0 else 1)) =
         (if g = 0 then 1 else 3) - oneWaySourceLayer cx cy g
    rcases hvp with ⟨hg0, hsrc⟩ | ⟨hg1, hsrc⟩
    · subst hg0
      rcases hsrc with h | h <;> rw [h] <;> norm_num
    · subst hg1
      rcases hsrc with h | h <;> rw [h] <;> norm_num
  · intro layer hne
    unfold entrancesForChunk
    rw [hg]
    dsimp only
    by_cases hvp2 : (g = 0 ∧ (layer = 0 ∨ layer = 1)) ∨ (g = 1 ∧ (layer = 1 ∨ layer = 2))
    · rw [if_neg (not_not_intro hvp2), if_pos hm, if_pos hne]
    · rw [if_pos hvp2]

/-- Witness for C5 at the one-way site (0, 0): the source layer is 1, the
destination is 0, and querying layer 0 returns nothing. -/
theorem C5_oneway_source_witness :
    (portalGroupAt 0 0 = some 0 ∧ portalModeForSite 0 0 0 = "oneway" ∧
     oneWaySourceLayer 0 0 0 = 1 ∧ (0 : Int) ≠ oneWaySourceLayer 0 0 0) ∧
    entrancesForChunk (oneWaySourceLayer 0 0 0) 0 0 = [onewayEntrance 0 0 0] ∧
    (onewayEntrance 0 0 0).toLayer = (if (0 : Int) = 0 then 1 else 3) - oneWaySourceLayer 0 0 0 ∧
    entrancesForChunk 0 0 0 = [] := by
  have h := C5_oneway_source 0 0 0 (by decide) portalMode_site00
  exact ⟨⟨by decide, portalMode_site00, by decide, by decide⟩, h.1, h.2.2.1, h.2.2.2 0 (by decide)⟩

/-! ## Transition state machine claims -/

/-- Claim C7: a new engagement never starts while a transition is active
or the cooldown timer is positive; and when Idle with zero cooldown, if
some queried entrance contains the player in its oriented mouth with the
movement direction entering it (dot above the 0.35 threshold), then
`tryStartTransition` engages the first such entrance in iteration order
in the same evaluation, setting progress to 0. -/
theorem C7_transition_engagement :
    (∀ (s : GState) (es : List Entrance) (mvx mvy : ℚ),
       (s.transitioning = true ∨ 0 < s.trCooldown) →
       tryStartTransition s es mvx mvy = s) ∧
    (∀ (s : GState) (es : List Entrance) (mvx mvy : ℚ),
       s.transitioning = false → s.trCooldown = 0 →
       (∃ e ∈ es, (pointInOrientedMouth s.x s.y e && movingInto e mvx mvy) = true) →
       ∃ e, es.find? (fun e => pointInOrientedMouth s.x s.y e && movingInto e mvx mvy) = some e ∧
         tryStartTransition s es mvx mvy =
           { s with transitioning := true, trEntrance := some e,
                    trSrcLayer := some s.currentLayer, trProgress := 0,
                    trStartX := s.x, trStartY := s.y }) := by
  constructor
  · intro s es mvx mvy h
    unfold tryStartTransition
    rw [if_pos h]
  · intro s es mvx mvy ht hcd hex
    have hcond : ¬((s.transitioning : Prop) ∨ s.trCooldown > 0) := by
      push_neg
      refine ⟨by simp [ht], by rw [hcd]⟩
    unfold tryStartTransition
    rw [if_neg hcond]
    have hsome : (es.find? (fun e => pointInOrientedMouth s.x s.y e && movingInto e mvx mvy)).isSome := by
      rw [List.find?_isSome]
      obtain ⟨e', he', hp⟩ := hex
      exact ⟨e', he', hp⟩
    obtain ⟨e, he⟩ := Option.isSome_iff_exists.1 hsome
    rw [he]
    exact ⟨e, rfl, rfl⟩

/-- A concrete two-way entrance facing Down at the origin, used by the
transition witnesses. -/
def eDownW : Entrance :=
  { id := "w", cx := 0, cy := 0, group := 0, x := 0, y := 0, dirIdx := 0, dir := dirDown,
    mouthW := 2, mouthH := 2, depth := 1, mode := "twoway", layer := 0, toLayer := 1 }

/-- An idle frame state with zero cooldown, the player at the origin. -/
def gIdle : GState :=
  { x := 0, y := 0, vx := 0, vy := 1, currentLayer := 0, transitioning := false,
    trEntrance := none, trSrcLayer := none, trProgress := 0, trDuration := 28 / 100,
    trStartX := 0, trStartY := 0, trCooldown := 0 }

/-- Witness for C7: inside the mouth of a Down-facing twoway entrance,
moving with vector (0, 1) (dot exactly 1), the idle state engages it. -/
theorem C7_transition_engagement_witness :
    (gIdle.transitioning = false ∧ gIdle.trCooldown = 0 ∧
     (pointInOrientedMouth gIdle.x gIdle.y eDownW && movingInto eDownW 0 1) = true) ∧
    (∃ e, [eDownW].find?
        (fun e => pointInOrientedMouth gIdle.x gIdle.y e && movingInto e 0 1) = some e ∧
      tryStartTransition gIdle [eDownW] 0 1 =
        { gIdle with transitioning := true, trEntrance := some e,
                     trSrcLayer := some gIdle.currentLayer, trProgress := 0,
                     trStartX := gIdle.x, trStartY := gIdle.y }) := by
  have hin : pointInOrientedMouth gIdle.x gIdle.y eDownW = true := by
    unfold pointInOrientedMouth
    rw [decide_eq_true_eq]
    norm_num [eDownW, gIdle, dirDown, cosQ, sinQ]
  have hmv : movingInto eDownW 0 1 = true := by
    unfold movingInto
    rw [if_neg (by norm_num)]
    rw [decide_eq_true_eq]
    norm_num [eDownW, dirDown]
  have hp : (pointInOrientedMouth gIdle.x gIdle.y eDownW && movingInto eDownW 0 1) = true := by
    rw [hin, hmv]
    rfl
  exact ⟨⟨rfl, rfl, hp⟩,
    C7_transition_engagement.2 gIdle [eDownW] 0 1 rfl rfl ⟨eDownW, List.mem_singleton_self _, hp⟩⟩

/-- Claim C8: on the frame where progress reaches 1, the tick sets the
active layer to the engaged entrance's `toLayer`, clears the transition
back to Idle (flag false, entrance and source layer cleared), starts the
fixed 0.22 s cooldown — and changes nothing else: position is exactly
what the movement integration (with `worldClamp`) produced this frame,
velocity and every other field are untouched (no teleport or nudge). -/
theorem C8_transition_completion (s : GState) (e : Entrance) (dt : ℚ)
    (htr : s.transitioning = true)
    (he : s.trEntrance = some e)
    (hdone : 1 ≤ s.trProgress + dt / s.trDuration) :
    tickAfterVel s dt = some
      { s with x := worldClampX (s.x + s.vx * dt),
               y := worldClampY (s.y + s.vy * dt),
               currentLayer := e.toLayer,
               transitioning := false,
               trEntrance := none,
               trSrcLayer := none,
               trProgress := s.trProgress + dt / s.trDuration,
               trCooldown := PORTAL_transition_cooldown } := by
  unfold tickAfterVel
  by_cases hcd : s.trCooldown > 0
  · rw [if_pos hcd]
    dsimp only
    rw [htr, he, if_pos rfl, if_pos hdone]
  · rw [if_neg hcd]
    dsimp only
    rw [htr, he, if_pos rfl, if_pos hdone]

/-- A mid-transition frame state: transitioning on `eDownW`, progress 1. -/
def gTrans : GState :=
  { gIdle with transitioning := true, trEntrance := some eDownW, trProgress := 1 }

/-- Witness for C8: a transitioning state whose progress reaches 1 this
frame completes onto the entrance's destination layer. -/
theorem C8_transition_completion_witness :
    (gTrans.transitioning = true ∧ gTrans.trEntrance = some eDownW ∧
     (1 : ℚ) ≤ gTrans.trProgress + 0 / gTrans.trDuration) ∧
    tickAfterVel gTrans 0 = some
      { gTrans with
        x := worldClampX (gTrans.x + gTrans.vx * 0),
        y := worldClampY (gTrans.y + gTrans.vy * 0),
        currentLayer := eDownW.toLayer,
        transitioning := false,
        trEntrance := none,
        trSrcLayer := none,
        trProgress := gTrans.trProgress + 0 / gTrans.trDuration,
        trCooldown := PORTAL_transition_cooldown } :=
  ⟨⟨rfl, rfl, by norm_num [gTrans, gIdle]⟩,
   C8_transition_completion gTrans eDownW 0 rfl rfl (by norm_num [gTrans, gIdle])⟩

/-- Claim C10: a movement vector of magnitude below 0.01 never counts as
entering any entrance (`movingInto` is false), hence a (near-)stationary
player never engages a transition that frame, even inside a mouth. -/
theorem C10_small_velocity_no_engage (mvx mvy : ℚ)
    (h : mvx * mvx + mvy * mvy < (1 / 100) * (1 / 100)) :
    (∀ e : Entrance, movingInto e mvx mvy = false) ∧
    (∀ (s : GState) (es : List Entrance), tryStartTransition s es mvx mvy = s) := by
  have hmi : ∀ e : Entrance, movingInto e mvx mvy = false := by
    intro e
    unfold movingInto
    rw [if_pos h]
  refine ⟨hmi, ?_⟩
  intro s es
  unfold tryStartTransition
  by_cases hc : (s.transitioning : Prop) ∨ s.trCooldown > 0
  · rw [if_pos hc]
  · rw [if_neg hc]
    have hnone : es.find? (fun e => pointInOrientedMouth s.x s.y e && movingInto e mvx mvy)
        = none := by
      rw [List.find?_eq_none]
      intro e _
      simp [hmi e]
    rw [hnone]

/-- Witness for C10: the zero vector (magnitude 0 < 0.01) engages
nothing, even though the player stands inside the entrance's mouth. -/
theorem C10_small_velocity_no_engage_witness :
    ((0 : ℚ) * 0 + 0 * 0 < (1 / 100) * (1 / 100)) ∧
    movingInto eDownW 0 0 = false ∧
    tryStartTransition gIdle [eDownW] 0 0 = gIdle :=
  ⟨by norm_num,
   (C10_small_velocity_no_engage 0 0 (by norm_num)).1 eDownW,
   (C10_small_velocity_no_engage 0 0 (by norm_num)).2 gIdle [eDownW]⟩

/-! ## Salt constants per randomized concern -/

/-- Salt used by `makeSeedsForLayer` (Voronoi seed placement). -/
def voronoiSeedSalt (layer : Int) : Int := 9001 + layer * 97
/-- Salt used by the height modulation in `genChunk` (`7777 + layer * 131`). -/
def heightNoiseSalt (layer : Int) : Int := 7777 + layer * 131
/-- Salt used by `portalModeForSite`. -/
def portalModeSalt (g : Int) : Int := 9001 + g * 101
/-- Salt used by `oneWaySourceLayer`. -/
def oneWaySourceSalt (g : Int) : Int := 4242 + g * 9

/-- Counterexample for C9: the claim fails on the code in two ways, shown
here at explicit inputs.  First, two distinct concerns share a salt at
the same coordinates: Voronoi seed placement for layer 0 uses salt
`9001 + 0*97 = 9001` and portal mode selection for group 0 uses salt
`9001 + 0*101 = 9001`, and both evaluate `hash32 0 0 9001` — seed 0's
x-coordinate on layer 0 and the mode of site (0,0) are derived from the
same hash value.  Second, the direction index (`pickDir`) is not derived
by applying `hash32` at all: it is the xor formula
`((cx*131) ^ (cy*197) ^ (group*911)) & 3`. -/
theorem C9_salt_collision_counterexample :
    voronoiSeedSalt 0 = portalModeSalt 0 ∧
    (makeSeedsForLayer 0).getD 0 (0, 0) =
      (rand01 (hash32 0 0 (portalModeSalt 0)) * ((WORLD_W : ℚ) - 1),
       rand01 (hash32 0 1 (portalModeSalt 0)) * ((WORLD_H : ℚ) - 1)) ∧
    portalModeForSite 0 0 0 =
      (if rand01 (hash32 0 0 (voronoiSeedSalt 0)) < PORTAL_MODE_oneWayChance
       then "oneway" else "twoway") ∧
    (pickDir 0 0 0).1 = (u32 (0 * 131) ^^^ u32 (0 * 197) ^^^ u32 (0 * 911)) % 4 := by
  refine ⟨by norm_num [voronoiSeedSalt, portalModeSalt], ?_, ?_, rfl⟩
  · have hr : List.range VORONOI_SEEDS =
        [0, 1, 2, 3, 4, 5, 6, 7, 8, 9, 10, 11, 12, 13, 14, 15] := by decide
    unfold makeSeedsForLayer
    rw [hr]
    simp only [List.map_cons, List.getD_cons_zero]
    norm_num [portalModeSalt]
  · unfold portalModeForSite
    norm_num [voronoiSeedSalt]

/-- Claim C9 as amended: the four hash-derived concerns (Voronoi seeds,
height noise, portal mode, one-way source) each salt `hash32` with their
own constant family, and over the used domains (layers 0-2, groups 0-1)
the salts are pairwise distinct across concerns with a single exception:
Voronoi layer 0 and portal mode group 0 both use salt 9001.  The portal
direction index is not hash-derived at all; it uses the fixed xor
formula of `pickDir`. -/
theorem C9_salts_amended :
    (∀ l lv g gm : Int, 0 ≤ l ∧ l ≤ 2 → 0 ≤ lv ∧ lv ≤ 2 → 0 ≤ g ∧ g ≤ 1 → 0 ≤ gm ∧ gm ≤ 1 →
       heightNoiseSalt l ≠ voronoiSeedSalt lv ∧
       heightNoiseSalt l ≠ portalModeSalt gm ∧
       heightNoiseSalt l ≠ oneWaySourceSalt g ∧
       oneWaySourceSalt g ≠ voronoiSeedSalt lv ∧
       oneWaySourceSalt g ≠ portalModeSalt gm ∧
       (voronoiSeedSalt lv = portalModeSalt gm ↔ lv = 0 ∧ gm = 0)) ∧
    (∀ cx cy g : Int, portalModeForSite cx cy g =
       (if rand01 (hash32 cx cy (portalModeSalt g)) < PORTAL_MODE_oneWayChance
        then "oneway" else "twoway")) ∧
    (∀ layer : Int, makeSeedsForLayer layer =
       (List.range VORONOI_SEEDS).map fun i =>
         (rand01 (hash32 (i : Int) 0 (voronoiSeedSalt layer)) * ((WORLD_W : ℚ) - 1),
          rand01 (hash32 (i : Int) 1 (voronoiSeedSalt layer)) * ((WORLD_H : ℚ) - 1))) ∧
    (∀ cx cy g : Int, oneWaySourceLayer cx cy g =
       (if g = 0 then (if hash32 cx cy (oneWaySourceSalt g) % 2 = 1 then 0 else 1)
        else (if hash32 cx cy (oneWaySourceSalt g) % 2 = 1 then 1 else 2))) ∧
    (∀ cx cy g : Int, (pickDir cx cy g).1 =
       (u32 (cx * 131) ^^^ u32 (cy * 197) ^^^ u32 (g * 911)) % 4) := by
  refine ⟨?_, fun cx cy g => rfl, fun layer => rfl, fun cx cy g => rfl, fun cx cy g => rfl⟩
  intro l lv g gm hl hlv hg hgm
  unfold heightNoiseSalt voronoiSeedSalt portalModeSalt oneWaySourceSalt
  refine ⟨by omega, by omega, by omega, by omega, by omega, by omega⟩

/-- Witness for the amended C9 at layers 0 and groups 0: the salts are as
stated, including the 9001 collision read off the iff. -/
theorem C9_salts_amended_witness :
    ((0 : Int) ≤ 0 ∧ (0 : Int) ≤ 2) ∧
    (heightNoiseSalt 0 ≠ voronoiSeedSalt 0 ∧
     heightNoiseSalt 0 ≠ portalModeSalt 0 ∧
     heightNoiseSalt 0 ≠ oneWaySourceSalt 0 ∧
     oneWaySourceSalt 0 ≠ voronoiSeedSalt 0 ∧
     oneWaySourceSalt 0 ≠ portalModeSalt 0 ∧
     (voronoiSeedSalt 0 = portalModeSalt 0 ↔ (0 : Int) = 0 ∧ (0 : Int) = 0)) :=
  ⟨⟨le_refl 0, by norm_num⟩,
   C9_salts_amended.1 0 0 0 0 (by norm_num) (by norm_num) (by norm_num) (by norm_num)⟩
